import Mathlib

/-!
Verification of the SSD (Species Sensitivity Distribution) statistical core.

The repository contains two iterations of the statistical core:
the file ssd_core.py (nonparametric bootstrap, Jacobian-corrected AICc,
location fixed at zero for both Weibull and Gamma, caller-supplied random
seed) and the file core_analysis.py (parametric bootstrap from a fitted
model, no Jacobian correction, location fixed only for Weibull, no seed).
Both are embedded below, stage by stage.  Machine floats are idealised as
elements of a linear ordered field (instantiated at the rationals for
executable witnesses and at the real numbers where the transcendental
functions exp and log of numpy enter the statements).  Library numerics
performed by scipy (maximum-likelihood fitting, density, quantile and
random-variate evaluation of a frozen family) are modelled as abstract
function parameters, while every piece of arithmetic and control flow
written in the repository itself is translated directly.
-/

/-- utils.py, calculate_aicc (lines 19-23): Akaike Information Criterion
corrected for small samples.  numpy inf is modelled as the top element of
the order completion; the Python comparison n - k - 1 <= 0 is on signed
integers, hence the cast through the integers.  Argument order follows the
source: parameter count k, log-likelihood, sample size n. -/
def calculate_aicc {α : Type} [LinearOrderedField α] (k : ℕ) (log_likelihood : α)
    (n : ℕ) : WithTop α :=
  if (n : ℤ) - k - 1 ≤ 0 then ⊤
  else ((2 * (k : α) - 2 * log_likelihood +
    (2 * (k : α) ^ 2 + 2 * (k : α)) / ((n : α) - (k : α) - 1) : α) : WithTop α)

/-- Entry of the DISTRIBUTIONS table: parameter count k and the
fit-on-log-scale flag (ssd_core.py lines 17-22, core_analysis.py 16-21). -/
structure DistInfo where
  k : ℕ
  log : Bool
deriving DecidableEq, Repr

/-- The fixed candidate table shared by both files: Log-Normal and
Log-Logistic fit on the log scale, Weibull and Gamma on the raw scale,
every family with k = 2. -/
def DISTRIBUTIONS : List (String × DistInfo) :=
  [("Log-Normal", ⟨2, true⟩), ("Log-Logistic", ⟨2, true⟩),
   ("Weibull", ⟨2, false⟩), ("Gamma", ⟨2, false⟩)]

/-- Abstract interface to one scipy distribution family: the
maximum-likelihood fit (free location), the fit with the keyword floc=0,
and the frozen density, quantile and distribution functions.  These are
scipy library numerics, not repository code, so they are parameters of the
embedding. -/
structure DistOps (α : Type) where
  fit : List α → List α
  fit_floc0 : List α → List α
  logpdf : List α → α → α
  ppf : List α → α → α
  cdf : List α → α → α

/-- One row of the fit-results frame produced by a single fit
(both files return the same dictionary shape; the purely diagnostic
Kolmogorov-Smirnov and Anderson-Darling entries are omitted because no
claim mentions them). -/
structure FitRow (α : Type) where
  name : String
  params : List α
  log_likelihood : α
  aicc : WithTop α
  hcp : α
  is_log : Bool
deriving DecidableEq

/-- ssd_core.py line 33: the fit call passes floc=0 exactly when the name
is Weibull or Gamma. -/
def usesFloc0 (dist_name : String) : Bool :=
  dist_name == "Weibull" || dist_name == "Gamma"

/-- core_analysis.py line 26: the fit call passes floc=0 only for
Weibull; Gamma is fit with a free location. -/
def usesFloc0_CA (dist_name : String) : Bool :=
  dist_name == "Weibull"

/-- Total shape-location-scale parameter count of the underlying scipy
family: norm and logistic expose (loc, scale), weibull_min and gamma
expose (shape, loc, scale). -/
def scipyShapeLocScaleParams : String → ℕ
  | "Weibull" => 3
  | "Gamma" => 3
  | _ => 2

/-- Number of parameters actually estimated by the fit call: fixing the
location with floc=0 removes one estimated parameter. -/
def freeParamCount (floc0 : String → Bool) (name : String) : ℕ :=
  scipyShapeLocScaleParams name - (if floc0 name then 1 else 0)

/-- ssd_core.py, _fit_single_distribution (lines 24-50).  expF and logF
stand for numpy exp and log; ops for the scipy family object.  The
log-scale branch transforms the data, and the Jacobian correction (line
40) subtracts the sum of the logs of the raw data from the log-likelihood
before the AICc of line 42 is computed.  The p argument is the protection
quantile p_value. -/
def fitSingleDistributionCore {α : Type} [LinearOrderedField α]
    (expF logF : α → α) (ops : DistOps α) (dist_name : String) (info : DistInfo)
    (data : List α) (p : α) : FitRow α :=
  let is_log := info.log
  let target_data := if is_log then data.map logF else data
  let params := if usesFloc0 dist_name then ops.fit_floc0 target_data
    else ops.fit target_data
  let ll0 := (target_data.map (ops.logpdf params)).sum
  let log_likelihood := if is_log then ll0 - (data.map logF).sum else ll0
  let aicc := calculate_aicc info.k log_likelihood data.length
  let hcp := if is_log then expF (ops.ppf params p) else ops.ppf params p
  ⟨dist_name, params, log_likelihood, aicc, hcp, is_log⟩

/-- core_analysis.py, _fit_single_distribution (lines 23-33).  Same shape
as the ssd_core fitter except: floc=0 only for Weibull (line 26), no
Jacobian correction of the log-likelihood (lines 27-28), and the AICc
sample size is the length of the (equally long) transformed data. -/
def fitSingleDistributionCA {α : Type} [LinearOrderedField α]
    (expF logF : α → α) (ops : DistOps α) (dist_name : String) (info : DistInfo)
    (data : List α) (p : α) : FitRow α :=
  let target_data := if info.log then data.map logF else data
  let params := if usesFloc0_CA dist_name then ops.fit_floc0 target_data
    else ops.fit target_data
  let log_likelihood := (target_data.map (ops.logpdf params)).sum
  let aicc := calculate_aicc info.k log_likelihood target_data.length
  let hcp := if info.log then expF (ops.ppf params p) else ops.ppf params p
  ⟨dist_name, params, log_likelihood, aicc, hcp, info.log⟩

/-- pandas Series.min over the AICc column: the least element, with the
empty case mapped to the top element (the column is nonempty wherever the
source evaluates it). -/
def listMinW {α : Type} [LinearOrder α] (l : List (WithTop α)) : WithTop α :=
  l.foldr min ⊤

/-- One term np.exp(-0.5 * (aicc - aicc_min)) of the Akaike weight
numerator.  A candidate whose AICc is the modelled infinity contributes
np.exp of negative infinity, that is zero (the degenerate situation in
which the minimum itself is infinite, meaning every candidate diverged,
produces nan in numpy and is likewise modelled as zero; it is unreachable
for sample sizes of at least five). -/
def expWeightTerm {α : Type} [LinearOrderedField α] (expF : α → α)
    (m a : WithTop α) : α :=
  match a, m with
  | (a' : α), (m' : α) => expF (-(1 / 2) * (a' - m'))
  | _, _ => 0

/-- Akaike weights, ssd_core.py line 100 and core_analysis.py line 55:
np.exp(-0.5 * (aicc - aicc.min())) normalised by its own sum, referenced
to the minimum AICc. -/
def akaikeWeights {α : Type} [LinearOrderedField α] (expF : α → α)
    (aiccs : List (WithTop α)) : List α :=
  let m := listMinW aiccs
  let es := aiccs.map (expWeightTerm expF m)
  es.map (fun e => e / es.sum)

/-- Insert into a sorted list (auxiliary for the sort performed inside
np.percentile). -/
def insertSorted {α : Type} [LinearOrder α] (x : α) : List α → List α
  | [] => [x]
  | y :: ys => if x ≤ y then x :: y :: ys else y :: insertSorted x ys

/-- Ascending insertion sort, modelling the sort a numpy percentile call
performs on its input. -/
def sortAsc {α : Type} [LinearOrder α] : List α → List α
  | [] => []
  | x :: xs => insertSorted x (sortAsc xs)

/-- np.percentile with the default linear interpolation: for quantile q
in [0, 100] over a nonempty list, the virtual index is
h = q / 100 * (n - 1); the result interpolates between the floor and the
following sorted order statistic. -/
def npPercentile {α : Type} [LinearOrderedField α] [FloorRing α]
    (q : α) (xs : List α) : α :=
  let s := sortAsc xs
  let n := s.length
  let h := q / 100 * ((n : α) - 1)
  let i := (Int.floor h).toNat
  let g := h - Int.floor h
  let lo := s.getD i 0
  let hi := s.getD (min (i + 1) (n - 1)) 0
  lo + g * (hi - lo)

/-- The reliability warning of ssd_core.py line 147, with the two counts
interpolated (the numpy f-string is modelled by string concatenation). -/
def unreliableMsg (successes n_boot : ℕ) : String :=
  "Warning: Confidence intervals may be unreliable. Only " ++
    toString successes ++ "/" ++ toString n_boot ++
    " successful bootstrap iterations."

/-- ssd_core.py lines 146-150: after the bootstrap loop, append the
reliability warning when the success count is below n_boot * 0.8, and
compute the 2.5th and 97.5th percentile bounds when more than two
iterations succeeded (np.nan placeholder bounds are modelled as none). -/
def aggregateBootstrap {α : Type} [LinearOrderedField α] [FloorRing α]
    (boot_hcps : List α) (n_boot : ℕ) (log_messages : List String) :
    List String × Option (α × α) :=
  let logs := if (boot_hcps.length : α) < (n_boot : α) * (8 / 10) then
      log_messages ++ [unreliableMsg boot_hcps.length n_boot]
    else log_messages
  let bounds := if 2 < boot_hcps.length then
      some (npPercentile (5 / 2) boot_hcps, npPercentile (195 / 2) boot_hcps)
    else none
  (logs, bounds)

/-- pandas sample(n=n, replace=True) on the valid observations
(ssd_core.py line 112): the generator yields row positions, each below the
length of the series, and the resample reads those positions. -/
def coreBootSample {α : Type} [LinearOrderedField α] (valid : List α)
    (idxs : List ℕ) : List α :=
  idxs.map (fun i => valid.getD i 0)

/-- ssd_core.py lines 79-88, the fitting loop over the candidate list on
the original data.  A name absent from DISTRIBUTIONS (including the None
default of single mode, modelled as the none entry) is skipped with no
message (line 80).  tryFit models the try block around the fitter: an
error value stands for a raised exception and appends the exclusion
warning of line 88; a returned fit whose HCp is not positive is excluded
with the warning of line 84 (non-finite HCp values do not exist in the
idealised field).  The source quotes the candidate name; the quote marks
are not reproduced. -/
def originalFits {α : Type} [LinearOrderedField α]
    (tryFit : List α → String → DistInfo → Except String (FitRow α))
    (dists_to_fit : List (Option String)) (valid : List α) :
    List (FitRow α) × List String :=
  dists_to_fit.foldl (fun acc oname =>
    match oname.bind (fun name =>
        (DISTRIBUTIONS.lookup name).map (fun info => (name, info))) with
    | none => acc
    | some (name, info) =>
      match tryFit valid name info with
      | Except.error e =>
        (acc.1, acc.2 ++ ["Warning: Could not fit " ++ name ++
          " to the original data. It will be excluded. Details: " ++ e])
      | Except.ok fit =>
        if 0 < fit.hcp then (acc.1 ++ [fit], acc.2)
        else (acc.1, acc.2 ++ ["Warning: Could not derive a valid positive HCp for the " ++
          name ++ " distribution. It will be excluded."])) ([], [])

/-- ssd_core.py lines 114-121, the fitting loop over the candidate list on
one bootstrap resample: identical dispatch and validity condition, but
failures are skipped silently (the bare continue of line 121 logs
nothing). -/
def bootFitsCore {α : Type} [LinearOrderedField α]
    (tryFit : List α → String → DistInfo → Except String (FitRow α))
    (dists_to_fit : List (Option String)) (sample : List α) : List (FitRow α) :=
  dists_to_fit.foldl (fun acc oname =>
    match oname.bind (fun name =>
        (DISTRIBUTIONS.lookup name).map (fun info => (name, info))) with
    | none => acc
    | some (name, info) =>
      match tryFit sample name info with
      | Except.error _ => acc
      | Except.ok fit => if 0 < fit.hcp then acc ++ [fit] else acc) []

/-- One iteration of the ssd_core bootstrap loop (lines 110-138, the HCp
path): draw index positions from the generator, resample the valid data
with replacement, refit the same candidate list, and when any candidate
survives record the Akaike-weighted HCp of the resample.  The per-point
CDF curves aggregated alongside (lines 129-138) are handled by the
plot-stage definitions below. -/
def bootIterationCore {α σ : Type} [LinearOrderedField α] (expF : α → α)
    (tryFit : List α → String → DistInfo → Except String (FitRow α))
    (sampler : σ → ℕ → ℕ → List ℕ × σ)
    (dists_to_fit : List (Option String)) (valid : List α) (n : ℕ)
    (modeSingle : Bool) (rng : σ) : Option α × σ :=
  let drawn := sampler rng valid.length n
  let boot_sample := coreBootSample valid drawn.1
  let b_fits := bootFitsCore tryFit dists_to_fit boot_sample
  if b_fits.isEmpty then (none, drawn.2)
  else
    let ws := if modeSingle then b_fits.map (fun _ => (1 : α))
      else akaikeWeights expF (b_fits.map FitRow.aicc)
    (some (List.zipWith (fun w r => w * FitRow.hcp r) ws b_fits).sum, drawn.2)

/-- The n_boot iterations of the ssd_core bootstrap loop, threading the
single generator state and collecting the weighted HCp of every
successful iteration in order. -/
def bootLoopCore {α σ : Type} [LinearOrderedField α] (expF : α → α)
    (tryFit : List α → String → DistInfo → Except String (FitRow α))
    (sampler : σ → ℕ → ℕ → List ℕ × σ)
    (dists_to_fit : List (Option String)) (valid : List α) (n n_boot : ℕ)
    (modeSingle : Bool) (rng0 : σ) : List α :=
  ((List.range n_boot).foldl (fun acc _ =>
    let step := bootIterationCore expF tryFit sampler dists_to_fit valid n
      modeSingle acc.2
    (match step.1 with
     | some h => acc.1 ++ [h]
     | none => acc.1, step.2)) (([] : List α), rng0)).1

/-- The final payload of run_ssd_analysis (ssd_core.py line 172, the
numeric part): the model-averaged HCp, its bootstrap confidence bounds
(none models the np.nan pair), and the results frame rows paired with
their weight column.  The plot_data bundle is assembled by the dedicated
stage definitions below. -/
structure SSDResult (α : Type) where
  hcp : α
  hcp_ci : Option (α × α)
  results : List (FitRow α × α)
deriving DecidableEq

/-- ssd_core.py, run_ssd_analysis (lines 52-173; the HCp and diagnostics
path).  The ambient argument is the state of the process-wide numpy
generator at entry; line 69 reseeds it from the caller-supplied seed
before anything else, so the ambient state is discarded and the whole run
is a function of the arguments alone.  Stages in source order: reseed,
keep the strictly positive observations, refuse fewer than five, build
the candidate list from the mode, fit on the original data, fail when no
candidate survives, attach the weight column (1.0 in single mode, Akaike
weights otherwise), take the weighted HCp, run the bootstrap loop from
the freshly seeded generator, and aggregate warnings and percentile
bounds.  The protection quantile is baked into tryFit, which models the
fitter together with its try block. -/
def runSSDCore {α σ : Type} [LinearOrderedField α] [FloorRing α] (expF : α → α)
    (tryFit : List α → String → DistInfo → Except String (FitRow α))
    (seedFn : ℕ → σ) (sampler : σ → ℕ → ℕ → List ℕ × σ)
    (data : List α) (mode : String) (selected_dist : Option String)
    (n_boot : ℕ) (random_seed : ℕ) (_ambient : σ) :
    Option (SSDResult α) × List String :=
  let rng0 := seedFn random_seed
  let valid_data := data.filter (fun x => 0 < x)
  if valid_data.length < 5 then
    (none, ["Not enough valid data points (minimum 5 required)."])
  else
    let n := valid_data.length
    let dists_to_fit : List (Option String) :=
      if mode = "single_distribution" then [selected_dist]
      else DISTRIBUTIONS.map (fun d => some d.1)
    let fitted := originalFits tryFit dists_to_fit valid_data
    if fitted.1.isEmpty then
      (none, ["Failed to fit any valid distributions to the data."])
    else
      let modeSingle := mode = "single_distribution"
      let weights := if modeSingle then fitted.1.map (fun _ => (1 : α))
        else akaikeWeights expF (fitted.1.map FitRow.aicc)
      let final_hcp := (List.zipWith (fun w r => w * FitRow.hcp r) weights fitted.1).sum
      let boot_hcps := bootLoopCore expF tryFit sampler dists_to_fit valid_data
        n n_boot modeSingle rng0
      let agg := aggregateBootstrap boot_hcps n_boot fitted.2
      (some ⟨final_hcp, agg.2, fitted.1.zip weights⟩, agg.1)

/-- core_analysis.py lines 45-51 and 80-86, the fitting loop over the
candidate list: same dispatch on DISTRIBUTIONS membership, but every
successful fit is kept with no validity check on its HCp (the warning
strings of lines 51 and 89 are not tracked; no claim concerns them). -/
def caFits {α : Type} [LinearOrderedField α]
    (tryFit : List α → String → DistInfo → Except String (FitRow α))
    (dists_to_fit : List (Option String)) (sample : List α) : List (FitRow α) :=
  dists_to_fit.foldl (fun acc oname =>
    match oname.bind (fun name =>
        (DISTRIBUTIONS.lookup name).map (fun info => (name, info))) with
    | none => acc
    | some (name, info) =>
      match tryFit sample name info with
      | Except.error _ => acc
      | Except.ok fit => acc ++ [fit]) []

/-- core_analysis.py lines 67-74 inside one bootstrap iteration: draw n
random variates from the chosen fitted model (rvs consumes the ambient
generator), exponentiate them back when the model was fit on the log
scale, and keep the finite positive values (every element of the
idealised field is finite, so the cleaning reduces to positivity). -/
def caBootRawSample {α σ : Type} [LinearOrderedField α] (expF : α → α)
    (rvs : σ → List α → ℕ → List α × σ) (rng : σ) (row : FitRow α) (n : ℕ) :
    List α × σ :=
  let drawn := rvs rng row.params n
  let sample := if row.is_log then drawn.1.map expF else drawn.1
  (sample.filter (fun x => 0 < x), drawn.2)

/-- One iteration of the core_analysis bootstrap loop (lines 62-101, the
HCp path): pick one fitted model row at random in proportion to its
weight (chooseRow yields the chosen position), generate a fresh sample
from that parametric model, skip the iteration when fewer than five clean
points remain or no candidate refits, and otherwise record the
Akaike-weighted HCp of the refit. -/
def caBootIteration {α σ : Type} [LinearOrderedField α] (expF : α → α)
    (tryFit : List α → String → DistInfo → Except String (FitRow α))
    (chooseRow : σ → List (FitRow α × α) → ℕ × σ)
    (rvs : σ → List α → ℕ → List α × σ)
    (dists_to_fit : List (Option String)) (weightedRows : List (FitRow α × α))
    (n : ℕ) (modeSingle : Bool) (rng : σ) : Option α × σ :=
  let chosen := chooseRow rng weightedRows
  let row := ((weightedRows.map Prod.fst).getD chosen.1
    ⟨"", [], 0, ⊤, 0, false⟩)
  let sampled := caBootRawSample expF rvs chosen.2 row n
  if sampled.1.length < 5 then (none, sampled.2)
  else
    let b_fits := caFits tryFit dists_to_fit sampled.1
    if b_fits.isEmpty then (none, sampled.2)
    else
      let ws := if modeSingle then b_fits.map (fun _ => (1 : α))
        else akaikeWeights expF (b_fits.map FitRow.aicc)
      (some (List.zipWith (fun w r => w * FitRow.hcp r) ws b_fits).sum, sampled.2)

/-- core_analysis.py, run_ssd_analysis (lines 35-123; the HCp path).
No random seeding occurs anywhere in the function (its signature has no
seed argument), so the ambient generator state flows directly into the
parametric resampling of every iteration and the computed bounds depend
on it.  Bounds require at least two successful iterations (lines
107-113); log messages are not tracked (no claim concerns the exact
warning list of this variant). -/
def runSSDAnalysisCA {α σ : Type} [LinearOrderedField α] [FloorRing α]
    (expF : α → α)
    (tryFit : List α → String → DistInfo → Except String (FitRow α))
    (chooseRow : σ → List (FitRow α × α) → ℕ × σ)
    (rvs : σ → List α → ℕ → List α × σ)
    (data : List α) (mode : String) (selected_dist : Option String)
    (n_boot : ℕ) (ambient : σ) : Option (SSDResult α) × List String :=
  let valid_data := data.filter (fun x => 0 < x)
  if valid_data.length < 5 then
    (none, ["Not enough valid data points (minimum 5 required)."])
  else
    let n := valid_data.length
    let dists_to_fit : List (Option String) :=
      if mode = "single" then [selected_dist]
      else DISTRIBUTIONS.map (fun d => some d.1)
    let fits := caFits tryFit dists_to_fit valid_data
    if fits.isEmpty then
      (none, ["Failed to fit any distributions to the original data."])
    else
      let modeSingle := mode = "single"
      let weights := if modeSingle then fits.map (fun _ => (1 : α))
        else akaikeWeights expF (fits.map FitRow.aicc)
      let final_hcp := (List.zipWith (fun w r => w * FitRow.hcp r) weights fits).sum
      let weightedRows := fits.zip weights
      let boot_hcps := ((List.range n_boot).foldl (fun acc _ =>
        let step := caBootIteration expF tryFit chooseRow rvs dists_to_fit
          weightedRows n modeSingle acc.2
        (match step.1 with
         | some h => acc.1 ++ [h]
         | none => acc.1, step.2)) (([] : List α), ambient)).1
      let bounds := if boot_hcps.length < 2 then none
        else some (npPercentile (5 / 2) boot_hcps, npPercentile (195 / 2) boot_hcps)
      (some ⟨final_hcp, bounds, weightedRows⟩, [])

/-- ssd_core.py line 163: the empirical plotting positions
i / (N + 1) * 100 for the N sorted observations, i = 1 .. N (the
median-rank convention). -/
def empiricalCdfPercent {α : Type} [LinearOrderedField α] (N : ℕ) : List α :=
  (List.range N).map (fun i => (((i + 1 : ℕ) : α) / ((N : α) + 1)) * 100)

/-- np.max with an explicit bottom default (the series is nonempty
wherever the source evaluates it). -/
def listMaxD {α : Type} [LinearOrder α] (d : α) (l : List α) : α :=
  l.foldr max d

/-- ssd_core.py lines 166-169: scale the fitted weighted CDF curve and
both confidence-band curves to percent and cap each point at the maximum
empirical percentile. -/
def capCurves {α : Type} [LinearOrderedField α]
    (fitted lower upper : List α) (empirical_max : α) :
    List α × List α × List α :=
  (fitted.map (fun y => min (y * 100) empirical_max),
   lower.map (fun y => min (y * 100) empirical_max),
   upper.map (fun y => min (y * 100) empirical_max))

/-- core_analysis.py line 121: the same three curves are scaled to
percent and placed in plot_data with no cap. -/
def caPlotCurves {α : Type} [LinearOrderedField α]
    (fitted lower upper : List α) : List α × List α × List α :=
  (fitted.map (fun y => y * 100), lower.map (fun y => y * 100),
   upper.map (fun y => y * 100))

/-- Modelled from the spec: the log-density of the raw-scale distribution
equivalent, under the change of variables y = log x, to a base
distribution with log-density logpdfF fitted to the logs of the sample.
Its value at x is logpdfF (log x) - log x; summing it over the sample
gives the raw-scale log-likelihood the Jacobian correction is meant to
reproduce.  logF abstracts the logarithm so the definition stays
executable; the claims instantiate it with the real logarithm. -/
def specRawScaleLogLik {α : Type} [LinearOrderedField α] (logF : α → α)
    (logpdfF : α → α) (data : List α) : α :=
  (data.map (fun x => logpdfF (logF x) - logF x)).sum

/-- Sums of pointwise differences split into a difference of sums. -/
lemma list_sum_map_sub {γ : Type} {β : Type} [AddCommGroup β] (f g : γ → β) :
    ∀ l : List γ, (l.map (fun x => f x - g x)).sum = (l.map f).sum - (l.map g).sum
  | [] => by simp
  | x :: xs => by
    simp [list_sum_map_sub f g xs]
    abel

/-- Dividing every term of a sum by a constant divides the sum. -/
lemma list_sum_map_div {α : Type} [DivisionRing α] (c : α) :
    ∀ l : List α, (l.map (fun x => x / c)).sum = l.sum / c
  | [] => by simp
  | x :: xs => by
    simp [list_sum_map_div c xs, add_div]

/-- A list of nonnegative terms containing a positive term has a positive
sum. -/
lemma list_sum_pos_of_nonneg_of_pos {α : Type} [LinearOrderedField α] :
    ∀ l : List α, (∀ x ∈ l, 0 ≤ x) → (∃ x ∈ l, 0 < x) → 0 < l.sum
  | [], _, hex => by simp at hex
  | x :: xs, hall, hex => by
    simp only [List.sum_cons]
    rcases hex with ⟨y, hy, hypos⟩
    rcases List.mem_cons.mp hy with rfl | hyxs
    · have hxs : 0 ≤ xs.sum := List.sum_nonneg (fun z hz => hall z (List.mem_cons_of_mem _ hz))
      linarith
    · have hx : 0 ≤ x := hall x (List.mem_cons_self _ _)
      have hxs : 0 < xs.sum := list_sum_pos_of_nonneg_of_pos xs
        (fun z hz => hall z (List.mem_cons_of_mem _ hz)) ⟨y, hyxs, hypos⟩
      linarith

/-- The right fold of min is a lower bound of the list. -/
lemma foldr_min_le {α : Type} [LinearOrder α] (d : α) :
    ∀ (l : List α), ∀ x ∈ l, l.foldr min d ≤ x
  | y :: ys, x, hx => by
    rcases List.mem_cons.mp hx with rfl | hxy
    · exact min_le_left _ _
    · exact le_trans (min_le_right _ _) (foldr_min_le d ys x hxy)

/-- Every member of a list bounds its right fold of max from below. -/
lemma le_foldr_max {α : Type} [LinearOrder α] (d : α) :
    ∀ (l : List α), ∀ x ∈ l, x ≤ l.foldr max d
  | y :: ys, x, hx => by
    rcases List.mem_cons.mp hx with rfl | hxy
    · exact le_max_left _ _
    · exact le_trans (le_foldr_max d ys x hxy) (le_max_right _ _)

/-- The right fold of max of a bounded list from a bounded default is
bounded. -/
lemma foldr_max_le {α : Type} [LinearOrder α] {b d : α} (hd : d ≤ b) :
    ∀ (l : List α), (∀ x ∈ l, x ≤ b) → l.foldr max d ≤ b
  | [], _ => hd
  | y :: ys, hall => by
    simp only [List.foldr_cons]
    exact max_le (hall y (List.mem_cons_self _ _))
      (foldr_max_le hd ys (fun z hz => hall z (List.mem_cons_of_mem _ hz)))

/-- getD at a position inside the list yields a member of the list. -/
lemma getD_mem_of_lt {α : Type} (l : List α) (i : ℕ) (d : α)
    (h : i < l.length) : l.getD i d ∈ l := by
  rw [List.getD_eq_getElem l d h]
  exact List.getElem_mem h

/-- A concrete rational family interface for witnesses and
counterexamples: the free fit returns the data unchanged, the
location-fixed fit returns the empty parameter list, and the density,
quantile and distribution functions are zero. -/
def idOpsQ : DistOps ℚ :=
  ⟨fun l => l, fun _ => [], fun _ _ => 0, fun _ _ => 0, fun _ _ => 0⟩

/-- The same concrete family interface over the reals. -/
def zeroOpsR : DistOps ℝ :=
  ⟨fun l => l, fun _ => [], fun _ _ => 0, fun _ _ => 0, fun _ _ => 0⟩

/-- A concrete rational fitter for witnesses: always succeeds with a
fixed row of positive HCp. -/
def okFitQ : List ℚ → String → DistInfo → Except String (FitRow ℚ) :=
  fun _ _ _ => Except.ok ⟨"X", [], 0, ((0 : ℚ) : WithTop ℚ), 1, false⟩

/-- A concrete rational fitter for witnesses and counterexamples that
raises (returns an error) on samples of fewer than five points and
succeeds otherwise. -/
def gateFitQ : List ℚ → String → DistInfo → Except String (FitRow ℚ) :=
  fun d _ _ =>
    if d.length < 5 then Except.error "sample too small"
    else Except.ok ⟨"X", [], 0, ((0 : ℚ) : WithTop ℚ), 1, false⟩

/-- C5: the computed AICc equals 2k - 2 LL + (2k^2 + 2k) / (n - k - 1)
whenever n - k - 1 > 0 (that is, k + 1 < n), and equals the modelled
positive infinity whenever n - k - 1 <= 0, for every parameter count,
log-likelihood and sample size, hence for every candidate family. -/
theorem aicc_formula_and_infinity {α : Type} [LinearOrderedField α]
    (k n : ℕ) (ll : α) :
    (k + 1 < n → calculate_aicc k ll n =
      ((2 * (k : α) - 2 * ll + (2 * (k : α) ^ 2 + 2 * (k : α)) /
        ((n : α) - (k : α) - 1) : α) : WithTop α)) ∧
    (n ≤ k + 1 → calculate_aicc k ll n = ⊤) := by
  constructor
  · intro h
    rw [calculate_aicc, if_neg]
    omega
  · intro h
    rw [calculate_aicc, if_pos]
    omega

/-- Witness for C5 at k = 2: a sample of five points gives the finite
formula value 10 at zero log-likelihood, and a sample of three points
(n - k - 1 = 0) gives infinity. -/
theorem aicc_formula_and_infinity_witness :
    calculate_aicc 2 (0 : ℚ) 5 = ((10 : ℚ) : WithTop ℚ) ∧
    calculate_aicc 2 (0 : ℚ) 3 = ⊤ := by
  constructor
  · have h := (aicc_formula_and_infinity (α := ℚ) 2 5 0).1 (by norm_num)
    rw [h]
    norm_num
  · exact (aicc_formula_and_infinity (α := ℚ) 2 3 0).2 (by norm_num)

/-- C7 (amended to the ssd_core fitter): Weibull and Gamma are tagged
raw-scale with k = 2 in the candidate table, their fit call passes
floc=0, the number of estimated parameters is therefore 2 and matches the
k used for AICc, and the fitted parameters returned by the ssd_core
fitter are exactly the location-fixed fit of the raw sample.  (The
core_analysis fitter violates this for Gamma; see the counterexample.) -/
theorem core_weibull_gamma_floc_zero (name : String)
    (hname : name = "Weibull" ∨ name = "Gamma") :
    DISTRIBUTIONS.lookup name = some ⟨2, false⟩ ∧
    usesFloc0 name = true ∧
    freeParamCount usesFloc0 name = 2 ∧
    (∀ {α : Type} [inst : LinearOrderedField α] (expF logF : α → α)
      (ops : DistOps α) (data : List α) (p : α),
      (fitSingleDistributionCore expF logF ops name ⟨2, false⟩ data p).params =
        ops.fit_floc0 data ∧
      (fitSingleDistributionCore expF logF ops name ⟨2, false⟩ data p).aicc =
        calculate_aicc 2
          (fitSingleDistributionCore expF logF ops name ⟨2, false⟩ data p).log_likelihood
          data.length) := by
  rcases hname with rfl | rfl <;>
    exact ⟨rfl, rfl, rfl, fun expF logF ops data p =>
      ⟨by simp [fitSingleDistributionCore, usesFloc0],
       by simp [fitSingleDistributionCore, usesFloc0]⟩⟩

/-- Witness for C7 at the Gamma family and a concrete rational sample. -/
theorem core_weibull_gamma_floc_zero_witness :
    usesFloc0 "Gamma" = true ∧
    (fitSingleDistributionCore id id idOpsQ "Gamma" ⟨2, false⟩ [1, 2] 0).params =
      idOpsQ.fit_floc0 [1, 2] :=
  ⟨(core_weibull_gamma_floc_zero "Gamma" (Or.inr rfl)).2.1,
   ((core_weibull_gamma_floc_zero "Gamma" (Or.inr rfl)).2.2.2
     id id idOpsQ [1, 2] 0).1⟩

/-- C7 counterexample: in the core_analysis fitter the Gamma fit call
does not pass floc=0, so Gamma is fit with a free location, estimating 3
parameters rather than the 2 counted in its AICc; on a concrete sample
the returned parameters are those of the free fit, not of the
location-fixed fit. -/
theorem ca_gamma_free_location_cex :
    usesFloc0_CA "Gamma" = false ∧
    freeParamCount usesFloc0_CA "Gamma" = 3 ∧
    (fitSingleDistributionCA id id idOpsQ "Gamma" ⟨2, false⟩ [1, 2] 0).params =
      idOpsQ.fit [1, 2] ∧
    idOpsQ.fit [1, 2] ≠ idOpsQ.fit_floc0 [1, 2] := by
  refine ⟨rfl, rfl, ?_, by decide⟩
  simp [fitSingleDistributionCA, usesFloc0_CA]

/-- C1 (amended to the ssd_core fitter): for every family fit on the log
scale, the log-likelihood used to compute the AICc equals the
log-likelihood of the fitted base distribution evaluated on the logs of
the sample minus the sum of the logs of the sample, which is exactly the
log-likelihood of the equivalent raw-scale density at the same points
(the change-of-variables correction); the AICc of the candidate is
computed from that corrected value.  (The core_analysis fitter omits the
correction; see the counterexample.) -/
theorem jacobian_correction_core (ops : DistOps ℝ) (name : String)
    (info : DistInfo) (data : List ℝ) (p : ℝ) (hlog : info.log = true)
    (hpos : ∀ x ∈ data, 0 < x) :
    (fitSingleDistributionCore Real.exp Real.log ops name info data p).log_likelihood =
      ((data.map Real.log).map (ops.logpdf
        (fitSingleDistributionCore Real.exp Real.log ops name info data p).params)).sum -
      (data.map Real.log).sum ∧
    (fitSingleDistributionCore Real.exp Real.log ops name info data p).log_likelihood =
      specRawScaleLogLik Real.log (ops.logpdf
        (fitSingleDistributionCore Real.exp Real.log ops name info data p).params) data ∧
    (fitSingleDistributionCore Real.exp Real.log ops name info data p).aicc =
      calculate_aicc info.k
        (fitSingleDistributionCore Real.exp Real.log ops name info data p).log_likelihood
        data.length := by
  refine ⟨?_, ?_, ?_⟩
  · simp [fitSingleDistributionCore, hlog]
  · simp only [fitSingleDistributionCore, hlog, if_true, specRawScaleLogLik]
    rw [list_sum_map_sub]
    simp [List.map_map, Function.comp_def]
  · simp [fitSingleDistributionCore, hlog]

/-- Witness for C1 at the Log-Normal family, the singleton sample
containing 1, and the zero family interface. -/
theorem jacobian_correction_core_witness :
    (fitSingleDistributionCore Real.exp Real.log zeroOpsR "Log-Normal"
      ⟨2, true⟩ [1] 0).log_likelihood =
    (([(1 : ℝ)].map Real.log).map (zeroOpsR.logpdf
      (fitSingleDistributionCore Real.exp Real.log zeroOpsR "Log-Normal"
        ⟨2, true⟩ [1] 0).params)).sum -
    ([(1 : ℝ)].map Real.log).sum :=
  (jacobian_correction_core zeroOpsR "Log-Normal" ⟨2, true⟩ [1] 0 rfl
    (by intro x hx; rw [List.mem_singleton] at hx; rw [hx]; norm_num)).1

/-- C1 counterexample: the core_analysis fitter computes the AICc of a
log-scale family from the uncorrected log-likelihood.  At the sample
consisting of e alone and the zero density interface, its stored
log-likelihood is 0, while the claimed corrected value (base
log-likelihood on the logs minus the sum of the logs) is -1, and the two
differ. -/
theorem ca_fitter_omits_jacobian_cex :
    (fitSingleDistributionCA Real.exp Real.log zeroOpsR "Log-Normal"
      ⟨2, true⟩ [Real.exp 1] 0).log_likelihood = 0 ∧
    (([Real.exp 1].map Real.log).map (zeroOpsR.logpdf
      (fitSingleDistributionCA Real.exp Real.log zeroOpsR "Log-Normal"
        ⟨2, true⟩ [Real.exp 1] 0).params)).sum -
      ([Real.exp 1].map Real.log).sum = -1 ∧
    (0 : ℝ) ≠ -1 := by
  refine ⟨?_, ?_, by norm_num⟩
  · simp [fitSingleDistributionCA, zeroOpsR]
  · simp [zeroOpsR, Real.log_exp]

/-- Weight terms are nonnegative when the exponential model is
positive. -/
lemma expWeightTerm_nonneg {α : Type} [LinearOrderedField α] (expF : α → α)
    (hexp : ∀ x, 0 < expF x) (m a : WithTop α) :
    0 ≤ expWeightTerm expF m a := by
  cases a <;> cases m <;> simp [expWeightTerm] <;> exact le_of_lt (hexp _)

/-- Weight terms at finite AICc and finite minimum are positive. -/
lemma expWeightTerm_pos {α : Type} [LinearOrderedField α] (expF : α → α)
    (hexp : ∀ x, 0 < expF x) (m' a' : α) :
    0 < expWeightTerm expF (m' : WithTop α) (a' : WithTop α) := by
  simpa [expWeightTerm] using hexp (-(1 / 2) * (a' - m'))

/-- The positive observations of the input pass the validity filter
unchanged. -/
lemma filter_pos_eq_self {α : Type} [LinearOrderedField α] (data : List α)
    (hpos : ∀ x ∈ data, 0 < x) : data.filter (fun x => 0 < x) = data := by
  rw [List.filter_eq_self]
  intro a ha
  simpa using hpos a ha

/-- The Akaike weights of any candidate list containing at least one
finite AICc sum to one, for any positive exponential model. -/
lemma akaikeWeights_sum_one {α : Type} [LinearOrderedField α] (expF : α → α)
    (hexp : ∀ x, 0 < expF x) (aiccs : List (WithTop α))
    (hfin : ∃ a ∈ aiccs, a ≠ ⊤) : (akaikeWeights expF aiccs).sum = 1 := by
  obtain ⟨a, ha, hatop⟩ := hfin
  have hmle : listMinW aiccs ≤ a := foldr_min_le ⊤ aiccs a ha
  have hmtop : listMinW aiccs ≠ ⊤ := ne_top_of_le_ne_top hatop hmle
  obtain ⟨m', hm'⟩ := WithTop.ne_top_iff_exists.mp hmtop
  obtain ⟨a', ha'⟩ := WithTop.ne_top_iff_exists.mp hatop
  have hnonneg : ∀ e ∈ aiccs.map (expWeightTerm expF (listMinW aiccs)), 0 ≤ e := by
    intro e he
    obtain ⟨b, _, rfl⟩ := List.mem_map.mp he
    exact expWeightTerm_nonneg expF hexp _ b
  have hposmem : ∃ e ∈ aiccs.map (expWeightTerm expF (listMinW aiccs)), 0 < e := by
    refine ⟨expWeightTerm expF (listMinW aiccs) a, List.mem_map_of_mem _ ha, ?_⟩
    rw [← hm', ← ha']
    exact expWeightTerm_pos expF hexp m' a'
  have key : ∀ (l : List α), (∀ e ∈ l, 0 ≤ e) → (∃ e ∈ l, 0 < e) →
      (l.map (fun e => e / l.sum)).sum = 1 := by
    intro l h1 h2
    rw [list_sum_map_div, div_self (ne_of_gt (list_sum_pos_of_nonneg_of_pos l h1 h2))]
  exact key (aiccs.map (expWeightTerm expF (listMinW aiccs))) hnonneg hposmem

/-- C4: the Akaike weights of the surviving candidates, computed as
np.exp(-0.5 (AICc_i - AICc_min)) normalised by their sum, add up to 1
whenever at least one candidate survives (with the finite AICc values a
valid dataset of at least five points guarantees); and in averaged mode
the ensemble HCp returned by run_ssd_analysis equals the weighted sum of
the surviving candidates HCp values under exactly those weights. -/
theorem akaike_weights_sum_to_one :
    (∀ (rows : List (FitRow ℝ)), rows ≠ [] → (∀ r ∈ rows, r.aicc ≠ ⊤) →
      (akaikeWeights Real.exp (rows.map FitRow.aicc)).sum = 1) ∧
    (∀ {α : Type} [inst : LinearOrderedField α] [inst2 : FloorRing α] {σ : Type}
      (expF : α → α) (tryFit : List α → String → DistInfo → Except String (FitRow α))
      (seedFn : ℕ → σ) (sampler : σ → ℕ → ℕ → List ℕ × σ) (data : List α)
      (sel : Option String) (n_boot seed : ℕ) (amb : σ),
      (∀ x ∈ data, 0 < x) → 5 ≤ data.length →
      (originalFits tryFit (DISTRIBUTIONS.map (fun d => some d.1)) data).1 ≠ [] →
      (runSSDCore expF tryFit seedFn sampler data "model_averaging" sel
          n_boot seed amb).1.map SSDResult.hcp =
        some ((List.zipWith (fun w r => w * FitRow.hcp r)
          (akaikeWeights expF
            ((originalFits tryFit (DISTRIBUTIONS.map (fun d => some d.1)) data).1.map FitRow.aicc))
          (originalFits tryFit (DISTRIBUTIONS.map (fun d => some d.1)) data).1).sum)) := by
  constructor
  · intro rows hne hfin
    apply akaikeWeights_sum_one Real.exp Real.exp_pos
    match rows, hne with
    | r :: rs, _ =>
      exact ⟨r.aicc, List.mem_map_of_mem _ (List.mem_cons_self _ _),
        hfin r (List.mem_cons_self _ _)⟩
  · intro α inst inst2 σ expF tryFit seedFn sampler data sel n_boot seed amb
      hpos hlen hne
    have hmode : ¬ ("model_averaging" = "single_distribution") := by decide
    have hempty : ¬ ((originalFits tryFit
        (DISTRIBUTIONS.map (fun d => some d.1)) data).1.isEmpty = true) := by
      simpa [List.isEmpty_iff] using hne
    simp only [runSSDCore, filter_pos_eq_self data hpos, if_neg hmode,
      if_neg (show ¬ data.length < 5 by omega), if_neg hempty]
    simp

/-- Witness for C4: a single surviving candidate over the reals, and the
full rational pipeline on the observations 1 .. 5 with an always
succeeding fitter. -/
theorem akaike_weights_sum_to_one_witness :
    (akaikeWeights Real.exp
      (([⟨"Log-Normal", [], 0, ((0 : ℝ) : WithTop ℝ), 2, true⟩] :
        List (FitRow ℝ)).map FitRow.aicc)).sum = 1 ∧
    (runSSDCore (α := ℚ) (σ := ℕ) id okFitQ id (fun s _ _ => ([], s))
        [1, 2, 3, 4, 5] "model_averaging" none 0 0 0).1.map SSDResult.hcp =
      some ((List.zipWith (fun w r => w * FitRow.hcp r)
        (akaikeWeights id ((originalFits okFitQ
          (DISTRIBUTIONS.map (fun d => some d.1)) [1, 2, 3, 4, 5]).1.map FitRow.aicc))
        (originalFits okFitQ
          (DISTRIBUTIONS.map (fun d => some d.1)) [1, 2, 3, 4, 5]).1).sum) := by
  constructor
  · exact akaike_weights_sum_to_one.1
      [⟨"Log-Normal", [], 0, ((0 : ℝ) : WithTop ℝ), 2, true⟩] (by simp) (by simp)
  · exact akaike_weights_sum_to_one.2 id okFitQ id (fun s _ _ => ([], s))
      [1, 2, 3, 4, 5] none 0 0 0 (by decide) (by decide) (by decide)

/-- The original fitting loop over a one-element candidate list whose
fit succeeds with a positive HCp keeps exactly that fit and no
warnings. -/
lemma originalFits_single {α : Type} [LinearOrderedField α]
    (tryFit : List α → String → DistInfo → Except String (FitRow α))
    (name : String) (info : DistInfo) (valid : List α) (fit : FitRow α)
    (hlook : DISTRIBUTIONS.lookup name = some info)
    (hfit : tryFit valid name info = Except.ok fit) (hpos : 0 < fit.hcp) :
    originalFits tryFit [some name] valid = ([fit], []) := by
  simp [originalFits, hlook, hfit, hpos]

/-- C6: in single-distribution mode with a valid selected candidate, the
weight column attached to the lone surviving row is exactly 1, the HCp
returned by run_ssd_analysis is that candidate's own HCp, and that HCp is
the inverse-CDF of the fitted family at the protection quantile,
exponentiated back to concentration units when the family is fit on the
log scale. -/
theorem single_mode_weight_and_hcp {σ : Type} (ops : DistOps ℝ)
    (seedFn : ℕ → σ) (sampler : σ → ℕ → ℕ → List ℕ × σ)
    (name : String) (info : DistInfo) (data : List ℝ) (p : ℝ)
    (n_boot seed : ℕ) (amb : σ)
    (hlook : DISTRIBUTIONS.lookup name = some info)
    (hpos : ∀ x ∈ data, 0 < x) (hlen : 5 ≤ data.length)
    (hraw : info.log = false →
      0 < ops.ppf (if usesFloc0 name then ops.fit_floc0 data else ops.fit data) p) :
    (runSSDCore Real.exp
        (fun d nm inf => Except.ok (fitSingleDistributionCore Real.exp Real.log ops nm inf d p))
        seedFn sampler data "single_distribution" (some name) n_boot seed amb).1.map
      (fun r => r.results.map Prod.snd) = some [1] ∧
    (runSSDCore Real.exp
        (fun d nm inf => Except.ok (fitSingleDistributionCore Real.exp Real.log ops nm inf d p))
        seedFn sampler data "single_distribution" (some name) n_boot seed amb).1.map
      SSDResult.hcp =
      some (fitSingleDistributionCore Real.exp Real.log ops name info data p).hcp ∧
    (fitSingleDistributionCore Real.exp Real.log ops name info data p).hcp =
      (if info.log = true then
        Real.exp (ops.ppf (if usesFloc0 name then ops.fit_floc0 (data.map Real.log)
          else ops.fit (data.map Real.log)) p)
      else ops.ppf (if usesFloc0 name then ops.fit_floc0 data else ops.fit data) p) := by
  have hcpform : (fitSingleDistributionCore Real.exp Real.log ops name info data p).hcp =
      (if info.log = true then
        Real.exp (ops.ppf (if usesFloc0 name then ops.fit_floc0 (data.map Real.log)
          else ops.fit (data.map Real.log)) p)
      else ops.ppf (if usesFloc0 name then ops.fit_floc0 data else ops.fit data) p) := by
    cases hl : info.log <;> simp [fitSingleDistributionCore, hl]
  have hcppos : 0 < (fitSingleDistributionCore Real.exp Real.log ops name info data p).hcp := by
    rw [hcpform]
    cases hl : info.log
    · simpa [hl] using hraw hl
    · simp [hl]
      exact Real.exp_pos _
  have hof : originalFits
      (fun d nm inf => Except.ok (fitSingleDistributionCore Real.exp Real.log ops nm inf d p))
      [some name] data =
      ([fitSingleDistributionCore Real.exp Real.log ops name info data p], []) :=
    originalFits_single _ name info data _ hlook rfl hcppos
  refine ⟨?_, ?_, hcpform⟩ <;>
  · simp only [runSSDCore, filter_pos_eq_self data hpos]
    rw [if_neg (show ¬ data.length < 5 by omega)]
    simp [hof]

/-- Witness for C6 at the Log-Normal family, the constant sample of five
ones and the zero family interface over the reals. -/
theorem single_mode_weight_and_hcp_witness :
    (runSSDCore Real.exp
        (fun d nm inf => Except.ok (fitSingleDistributionCore Real.exp Real.log zeroOpsR nm inf d 0))
        (id : ℕ → ℕ) (fun s _ _ => ([], s)) [1, 1, 1, 1, 1] "single_distribution"
        (some "Log-Normal") 0 0 0).1.map (fun r => r.results.map Prod.snd) = some [1] ∧
    (runSSDCore Real.exp
        (fun d nm inf => Except.ok (fitSingleDistributionCore Real.exp Real.log zeroOpsR nm inf d 0))
        (id : ℕ → ℕ) (fun s _ _ => ([], s)) [1, 1, 1, 1, 1] "single_distribution"
        (some "Log-Normal") 0 0 0).1.map SSDResult.hcp =
      some (fitSingleDistributionCore Real.exp Real.log zeroOpsR "Log-Normal"
        ⟨2, true⟩ [1, 1, 1, 1, 1] 0).hcp := by
  have h := single_mode_weight_and_hcp (σ := ℕ) zeroOpsR id (fun s _ _ => ([], s))
    "Log-Normal" ⟨2, true⟩ [1, 1, 1, 1, 1] 0 0 0 0 rfl
    (by intro x hx; simp at hx; rw [hx]; norm_num) (by simp) (by simp)
  exact ⟨h.1, h.2.1⟩

/-- A concrete rational fitter for the core_analysis counterexamples:
succeeds with parameters equal to the sample and HCp equal to its first
point. -/
def headFitQ : List ℚ → String → DistInfo → Except String (FitRow ℚ) :=
  fun sample _ _ =>
    Except.ok ⟨"Log-Normal", sample, 0, ((0 : ℚ) : WithTop ℚ), sample.headD 0, false⟩

/-- C2 (amended to ssd_core): every bootstrap iteration resamples the
original valid observations with replacement: whenever the generator
produces in-range positions, the resample has exactly the requested size
n and every one of its points is one of the original observations. -/
theorem core_bootstrap_resamples_original {α : Type} [LinearOrderedField α]
    (valid : List α) (idxs : List ℕ) (n : ℕ)
    (hlen : idxs.length = n) (hvalid : ∀ i ∈ idxs, i < valid.length) :
    (coreBootSample valid idxs).length = n ∧
    ∀ x ∈ coreBootSample valid idxs, x ∈ valid := by
  constructor
  · simpa [coreBootSample] using hlen
  · intro x hx
    simp only [coreBootSample] at hx
    obtain ⟨i, hi, rfl⟩ := List.mem_map.mp hx
    exact getD_mem_of_lt valid i 0 (hvalid i hi)

/-- Witness for C2: resampling positions 0, 0, 4 from the observations
1 .. 5 yields a sample of size 3 whose members, such as 5, are original
observations. -/
theorem core_bootstrap_resamples_original_witness :
    (coreBootSample (α := ℚ) [1, 2, 3, 4, 5] [0, 0, 4]).length = 3 ∧
    (5 : ℚ) ∈ [(1 : ℚ), 2, 3, 4, 5] :=
  ⟨(core_bootstrap_resamples_original (α := ℚ) [1, 2, 3, 4, 5] [0, 0, 4] 3
      (by decide) (by decide)).1,
   (core_bootstrap_resamples_original (α := ℚ) [1, 2, 3, 4, 5] [0, 0, 4] 3
      (by decide) (by decide)).2 5 (by decide)⟩

/-- C2 counterexample: with original observations 1 .. 5, the sample used
by a core_analysis bootstrap iteration is generated by the fitted
parametric model (its rvs draw), here yielding 6 .. 10, so it is not
drawn with replacement from the original observations. -/
theorem ca_bootstrap_sample_from_model_cex :
    (caBootRawSample (α := ℚ) (σ := ℕ) id
        (fun s _ n => ((List.range n).map (fun k => ((s + k + 1 : ℕ) : ℚ)), s + n))
        5 ⟨"Log-Normal", [], 0, ⊤, 0, false⟩ 5).1 = [6, 7, 8, 9, 10] ∧
    ¬ (∀ x ∈ (caBootRawSample (α := ℚ) (σ := ℕ) id
        (fun s _ n => ((List.range n).map (fun k => ((s + k + 1 : ℕ) : ℚ)), s + n))
        5 ⟨"Log-Normal", [], 0, ⊤, 0, false⟩ 5).1, x ∈ ([1, 2, 3, 4, 5] : List ℚ)) := by
  decide

/-- C3 (amended to ssd_core): line 69 reinitialises the generator from
the caller-supplied seed before the loop, so the whole output --
resamples, confidence bounds and warnings -- is a function of dataset,
mode, candidate set, n_boot and seed alone, independent of the ambient
generator state at entry: two invocations with identical arguments and
any two entry states are equal. -/
theorem core_run_deterministic_given_seed {α σ : Type} [LinearOrderedField α]
    [FloorRing α] (expF : α → α)
    (tryFit : List α → String → DistInfo → Except String (FitRow α))
    (seedFn : ℕ → σ) (sampler : σ → ℕ → ℕ → List ℕ × σ) (data : List α)
    (mode : String) (sel : Option String) (n_boot seed : ℕ) (amb1 amb2 : σ) :
    runSSDCore expF tryFit seedFn sampler data mode sel n_boot seed amb1 =
      runSSDCore expF tryFit seedFn sampler data mode sel n_boot seed amb2 := rfl

/-- C3 counterexample: core_analysis run_ssd_analysis takes no seed and
never seeds the generator, and its confidence bounds change with the
ambient generator state: with identical dataset, mode, candidate set and
n_boot, entry states 0 and 100 produce different bounds. -/
theorem ca_bounds_depend_on_ambient_rng_cex :
    (runSSDAnalysisCA (α := ℚ) (σ := ℕ) id headFitQ (fun s _ => (0, s))
        (fun s _ n => ((List.range n).map (fun k => ((s + k + 1 : ℕ) : ℚ)), s + n))
        [1, 2, 3, 4, 5] "single" (some "Log-Normal") 2 0).1.map SSDResult.hcp_ci =
      some (some ((9 : ℚ) / 8, (47 : ℚ) / 8)) ∧
    (runSSDAnalysisCA (α := ℚ) (σ := ℕ) id headFitQ (fun s _ => (0, s))
        (fun s _ n => ((List.range n).map (fun k => ((s + k + 1 : ℕ) : ℚ)), s + n))
        [1, 2, 3, 4, 5] "single" (some "Log-Normal") 2 100).1.map SSDResult.hcp_ci =
      some (some ((809 : ℚ) / 8, (847 : ℚ) / 8)) ∧
    some (some ((9 : ℚ) / 8, (47 : ℚ) / 8)) ≠
      some (some ((809 : ℚ) / 8, (847 : ℚ) / 8)) := by
  refine ⟨?_, ?_, by norm_num⟩ <;>
    norm_num [runSSDAnalysisCA, caFits, caBootIteration, caBootRawSample, headFitQ,
      npPercentile, sortAsc, insertSorted, DISTRIBUTIONS, List.range_succ]

/-- C10: in single-distribution mode a selected name outside the four
known families (including the None default) is skipped by the membership
test before any fit is attempted, so the run returns no numeric payload
with the failed-to-fit message; the output is identical to that of an
invocation in which every candidate raises during fitting, because the
failure return rebuilds its message list from scratch. -/
theorem unknown_single_dist_silently_skipped {α σ : Type}
    [LinearOrderedField α] [FloorRing α] (expF : α → α)
    (tryFit : List α → String → DistInfo → Except String (FitRow α))
    (seedFn : ℕ → σ) (sampler : σ → ℕ → ℕ → List ℕ × σ) (data : List α)
    (sel sel2 : Option String) (n_boot seed : ℕ) (amb : σ) (e : String)
    (hunknown : ∀ s, sel = some s → DISTRIBUTIONS.lookup s = none)
    (hpos : ∀ x ∈ data, 0 < x) (hlen : 5 ≤ data.length) :
    runSSDCore expF tryFit seedFn sampler data "single_distribution" sel
      n_boot seed amb =
      (none, ["Failed to fit any valid distributions to the data."]) ∧
    runSSDCore expF (fun _ _ _ => Except.error e) seedFn sampler data
      "single_distribution" sel2 n_boot seed amb =
      (none, ["Failed to fit any valid distributions to the data."]) := by
  have h1 : originalFits tryFit [sel] data = ([], []) := by
    cases sel with
    | none => simp [originalFits]
    | some s => simp [originalFits, hunknown s rfl]
  have h2 : (originalFits (fun _ _ _ => (Except.error e :
      Except String (FitRow α))) [sel2] data).1 = [] := by
    cases sel2 with
    | none => simp [originalFits]
    | some s => cases hl : DISTRIBUTIONS.lookup s <;> simp [originalFits, hl]
  constructor <;>
  · simp only [runSSDCore, filter_pos_eq_self data hpos]
    rw [if_neg (show ¬ data.length < 5 by omega)]
    simp [h1, h2]

/-- Witness for C10: the unknown name Frechet against an always
succeeding fitter, and the known name Log-Normal against an always
raising fitter, produce the same failure output. -/
theorem unknown_single_dist_silently_skipped_witness :
    runSSDCore (α := ℚ) (σ := ℕ) id okFitQ id (fun s _ _ => ([], s))
      [1, 2, 3, 4, 5] "single_distribution" (some "Frechet") 3 42 0 =
      (none, ["Failed to fit any valid distributions to the data."]) ∧
    runSSDCore (α := ℚ) (σ := ℕ) id (fun _ _ _ => Except.error "boom") id
      (fun s _ _ => ([], s)) [1, 2, 3, 4, 5] "single_distribution"
      (some "Log-Normal") 3 42 0 =
      (none, ["Failed to fit any valid distributions to the data."]) :=
  unknown_single_dist_silently_skipped id okFitQ id (fun s _ _ => ([], s))
    [1, 2, 3, 4, 5] (some "Frechet") (some "Log-Normal") 3 42 0 "boom"
    (by intro s hs; injection hs with h; subst h; decide)
    (by decide) (by decide)

/-- C8 (amended): when the bootstrap success count falls below 80 percent
of n_boot the reliability warning is appended to the diagnostic log; the
2.5th and 97.5th empirical-percentile bounds are returned whenever more
than two iterations succeeded (with two or fewer the source stores nan
placeholders instead; see the counterexample); and once the input and
original-fit gates pass, run_ssd_analysis always returns a complete
bundle, whatever the bootstrap outcomes -- it is never aborted for lack
of successful iterations. -/
theorem bootstrap_reliability_warning :
    (∀ {α : Type} [inst : LinearOrderedField α] [inst2 : FloorRing α]
      (boot_hcps : List α) (n_boot : ℕ) (logs : List String),
      ((boot_hcps.length : α) < (n_boot : α) * (8 / 10) →
        unreliableMsg boot_hcps.length n_boot ∈
          (aggregateBootstrap boot_hcps n_boot logs).1) ∧
      (2 < boot_hcps.length →
        (aggregateBootstrap boot_hcps n_boot logs).2 =
          some (npPercentile (5 / 2) boot_hcps, npPercentile (195 / 2) boot_hcps))) ∧
    (∀ {α : Type} [inst : LinearOrderedField α] [inst2 : FloorRing α] {σ : Type}
      (expF : α → α) (tryFit : List α → String → DistInfo → Except String (FitRow α))
      (seedFn : ℕ → σ) (sampler : σ → ℕ → ℕ → List ℕ × σ) (data : List α)
      (mode : String) (sel : Option String) (n_boot seed : ℕ) (amb : σ),
      (∀ x ∈ data, 0 < x) → 5 ≤ data.length →
      (originalFits tryFit (if mode = "single_distribution" then [sel]
        else DISTRIBUTIONS.map (fun d => some d.1)) data).1 ≠ [] →
      (runSSDCore expF tryFit seedFn sampler data mode sel n_boot seed
        amb).1.isSome = true) := by
  constructor
  · intro α inst inst2 hcps n_boot logs
    constructor
    · intro h
      simp [aggregateBootstrap, if_pos h]
    · intro h
      simp [aggregateBootstrap, if_pos h]
  · intro α inst inst2 σ expF tryFit seedFn sampler data mode sel n_boot seed
      amb hpos hlen hne
    have hempty : ¬ ((originalFits tryFit (if mode = "single_distribution"
        then [sel] else DISTRIBUTIONS.map (fun d => some d.1)) data).1.isEmpty
        = true) := by
      simpa [List.isEmpty_iff] using hne
    simp only [runSSDCore, filter_pos_eq_self data hpos]
    rw [if_neg (show ¬ data.length < 5 by omega)]
    rw [if_neg hempty]
    simp

/-- Witness for C8: three successes out of ten requested iterations is
below threshold yet yields percentile bounds, and the rational pipeline
with an always succeeding fitter returns a complete bundle. -/
theorem bootstrap_reliability_warning_witness :
    unreliableMsg ([(1 : ℚ), 2, 3].length) 10 ∈
      (aggregateBootstrap ([1, 2, 3] : List ℚ) 10 []).1 ∧
    (aggregateBootstrap ([1, 2, 3] : List ℚ) 10 []).2 =
      some (npPercentile (5 / 2) [1, 2, 3], npPercentile (195 / 2) [1, 2, 3]) ∧
    (runSSDCore (α := ℚ) (σ := ℕ) id okFitQ id (fun s _ _ => ([], s))
      [1, 2, 3, 4, 5] "model_averaging" none 10 42 0).1.isSome = true := by
  refine ⟨?_, ?_, ?_⟩
  · exact (bootstrap_reliability_warning.1 ([1, 2, 3] : List ℚ) 10 []).1
      (by norm_num)
  · exact (bootstrap_reliability_warning.1 ([1, 2, 3] : List ℚ) 10 []).2
      (by norm_num)
  · exact bootstrap_reliability_warning.2 id okFitQ id (fun s _ _ => ([], s))
      [1, 2, 3, 4, 5] "model_averaging" none 10 42 0 (by decide) (by decide)
      (by decide)

/-- C8 counterexample: with ten requested iterations and zero successes
the run is below the 80 percent threshold; it still completes and logs
the reliability warning, but the bounds it returns are the nan
placeholder pair (modelled none), not computed 2.5th and 97.5th
empirical-percentile bounds as the claim states for every
below-threshold run. -/
theorem run_below_threshold_nan_bounds_cex :
    (runSSDCore (α := ℚ) (σ := ℕ) id gateFitQ id (fun s _ _ => ([], s))
      [1, 2, 3, 4, 5] "single_distribution" (some "Log-Normal") 10 42 0).1.map
      SSDResult.hcp_ci = some none ∧
    unreliableMsg 0 10 ∈ (runSSDCore (α := ℚ) (σ := ℕ) id gateFitQ id
      (fun s _ _ => ([], s)) [1, 2, 3, 4, 5] "single_distribution"
      (some "Log-Normal") 10 42 0).2 ∧
    (runSSDCore (α := ℚ) (σ := ℕ) id gateFitQ id (fun s _ _ => ([], s))
      [1, 2, 3, 4, 5] "single_distribution" (some "Log-Normal") 10 42
      0).1.isSome = true := by
  refine ⟨?_, ?_, ?_⟩ <;>
    norm_num [runSSDCore, originalFits, bootLoopCore, bootIterationCore,
      bootFitsCore, coreBootSample, aggregateBootstrap, gateFitQ,
      DISTRIBUTIONS, List.range_succ, unreliableMsg]

/-- C9 (amended to ssd_core): the maximum empirical plotting position of
N sorted observations is N / (N + 1) * 100, and after the capping stage
of lines 166-169 every point of the fitted weighted CDF curve and of
both confidence-band curves is at most that value.  (core_analysis ships
the same three curves uncapped; see the counterexample.) -/
theorem capped_curves_bounded {α : Type} [LinearOrderedField α]
    (N : ℕ) (hN : 1 ≤ N) (fitted lower upper : List α) :
    listMaxD 0 (empiricalCdfPercent (α := α) N) = (N : α) / ((N : α) + 1) * 100 ∧
    (∀ y ∈ (capCurves fitted lower upper
        (listMaxD 0 (empiricalCdfPercent (α := α) N))).1,
      y ≤ (N : α) / ((N : α) + 1) * 100) ∧
    (∀ y ∈ (capCurves fitted lower upper
        (listMaxD 0 (empiricalCdfPercent (α := α) N))).2.1,
      y ≤ (N : α) / ((N : α) + 1) * 100) ∧
    (∀ y ∈ (capCurves fitted lower upper
        (listMaxD 0 (empiricalCdfPercent (α := α) N))).2.2,
      y ≤ (N : α) / ((N : α) + 1) * 100) := by
  have hden : (0 : α) < (N : α) + 1 := by positivity
  have hboundpos : (0 : α) ≤ (N : α) / ((N : α) + 1) * 100 := by positivity
  have hmax : listMaxD 0 (empiricalCdfPercent (α := α) N) =
      (N : α) / ((N : α) + 1) * 100 := by
    apply le_antisymm
    · apply foldr_max_le hboundpos
      intro x hx
      obtain ⟨i, hi, rfl⟩ := List.mem_map.mp hx
      have hi' : i + 1 ≤ N := List.mem_range.mp hi
      have hcast : ((i + 1 : ℕ) : α) ≤ (N : α) := by exact_mod_cast hi'
      have hdiv : ((i + 1 : ℕ) : α) / ((N : α) + 1) ≤ (N : α) / ((N : α) + 1) :=
        (div_le_div_iff_of_pos_right hden).mpr hcast
      exact mul_le_mul_of_nonneg_right hdiv (by norm_num)
    · apply le_foldr_max
      have hsub : N - 1 + 1 = N := by omega
      have : (((N - 1 + 1 : ℕ) : α) / ((N : α) + 1)) * 100 =
          (N : α) / ((N : α) + 1) * 100 := by rw [hsub]
      rw [← this]
      exact List.mem_map_of_mem _ (List.mem_range.mpr (by omega))
  refine ⟨hmax, ?_, ?_, ?_⟩ <;>
  · intro y hy
    simp only [capCurves] at hy
    obtain ⟨z, _, rfl⟩ := List.mem_map.mp hy
    rw [← hmax]
    exact min_le_right _ _

/-- Witness for C9 at five observations and the singleton fitted curve
value 2. -/
theorem capped_curves_bounded_witness :
    listMaxD 0 (empiricalCdfPercent (α := ℚ) 5) =
      ((5 : ℕ) : ℚ) / (((5 : ℕ) : ℚ) + 1) * 100 ∧
    min ((2 : ℚ) * 100) (listMaxD 0 (empiricalCdfPercent (α := ℚ) 5)) ≤
      ((5 : ℕ) : ℚ) / (((5 : ℕ) : ℚ) + 1) * 100 :=
  ⟨(capped_curves_bounded (α := ℚ) 5 (by norm_num) [2] [] []).1,
   (capped_curves_bounded (α := ℚ) 5 (by norm_num) [2] [] []).2.1
     (min ((2 : ℚ) * 100) (listMaxD 0 (empiricalCdfPercent (α := ℚ) 5)))
     (by simp [capCurves])⟩

/-- C9 counterexample: core_analysis places the curves in plot_data with
no cap; a fitted CDF value of 1 is shipped as the point 100, which
exceeds the maximum empirical percentile 250 / 3 of five observations,
contradicting the claim for that invocation. -/
theorem ca_uncapped_curve_exceeds_empirical_max_cex :
    (caPlotCurves (α := ℚ) [1] [] []).1 = [100] ∧
    listMaxD 0 (empiricalCdfPercent (α := ℚ) 5) = 250 / 3 ∧
    ¬ ((100 : ℚ) ≤ 250 / 3) := by
  refine ⟨?_, ?_, by norm_num⟩ <;>
    norm_num [caPlotCurves, listMaxD, empiricalCdfPercent, List.range_succ]
